import Mathlib

/-!
# Verification of the condition-builder core

A shallow embedding of the `cleverJS/condition-builder` TypeScript library:
the value/operator model, the `FieldBuilder` per-operator validation, the
`ConditionBuilder` tree assembler (group stack, shorthand and descriptor
`where` forms, `andGroup`/`orGroup` scoping, `build()` with single-child
unwrapping) and the adapter registry.  Stateful JS methods become explicit
state-passing functions; thrown `Error`s become `Except String`; JS
`undefined` becomes `Option.none`.  Error-message strings keep the wording
of the source except that the single-quote characters around interpolated
names are elided.
-/

namespace CondB

/-- JS runtime values as seen by the builder: the primitive kinds the code
distinguishes via `typeof`/`instanceof`/`Array.isArray`, plus arrays and
plain objects (association lists of fields).  A `Date` is abstracted to its
timestamp, a number to an integer (the code never computes on numbers, it
only tests `typeof`). -/
inductive Value where
  | vstr (s : String)
  | vnum (n : Int)
  | vbool (b : Bool)
  | vdate (t : Int)
  | vnull
  | varr (xs : List Value)
  | vobj (fields : List (String × Value))

/-- `typeof v === 'string'` -/
def Value.isString : Value → Bool
  | .vstr _ => true
  | _ => false

/-- `typeof v === 'number'` -/
def Value.isNumber : Value → Bool
  | .vnum _ => true
  | _ => false

/-- `typeof v === 'boolean'` -/
def Value.isBoolean : Value → Bool
  | .vbool _ => true
  | _ => false

/-- `v instanceof Date` -/
def Value.isDate : Value → Bool
  | .vdate _ => true
  | _ => false

/-- `v === null` -/
def Value.isNull : Value → Bool
  | .vnull => true
  | _ => false

/-- `Array.isArray(v)` -/
def Value.isArray : Value → Bool
  | .varr _ => true
  | _ => false

/-- `FieldBuilder.#isValidSimpleValue`:
`value === null || typeof value === 'string' || typeof value === 'number' ||
 typeof value === 'boolean' || value instanceof Date`. -/
def isValidSimpleValue (v : Value) : Bool :=
  v.isNull || v.isString || v.isNumber || v.isBoolean || v.isDate

/-- `FieldBuilder.#isValidComparisonValue`:
`typeof value === 'string' || typeof value === 'number' || value instanceof Date`. -/
def isValidComparisonValue (v : Value) : Bool :=
  v.isString || v.isNumber || v.isDate

/-- `FieldBuilder.#isValidRangeValue`: same test as the comparison one. -/
def isValidRangeValue (v : Value) : Bool :=
  v.isString || v.isNumber || v.isDate

/-- `FieldBuilder.#validateValue(op, value?)`.  The argument `value` is
`none` when the JS call passed `undefined` (so the source check
`value !== undefined` is the match on `some`).  Each `throw new Error(...)`
becomes `.error` with the message of the source.  The JS destructuring
`const [start, end] = value` together with the `value.length !== 2` guard is
captured by matching a two-element list: for any other length the source
throws the same message, because a missing element is `undefined` and fails
`#isValidRangeValue`. -/
def validateValue (op : String) (value : Option Value) : Except String Unit :=
  if op == "$isnull" || op == "$notnull" then
    match value with
    | some _ => .error (op ++ " does not accept a value")
    | none => .ok ()
  else
    match value with
    | none => .error ("Value is required for operator " ++ op)
    | some v =>
      if op == "$in" || op == "$notin" then
        match v with
        | .varr xs =>
          if xs.all (fun x => x.isString || x.isNumber) then .ok ()
          else .error (op ++ " requires an array of strings or numbers")
        | _ => .error (op ++ " requires an array of strings or numbers")
      else if op == "$between" || op == "$notbetween" then
        match v with
        | .varr [s, e] =>
          if isValidRangeValue s && isValidRangeValue e then .ok ()
          else .error (op ++ " requires a tuple/array of two values [start, end], each being string|number|Date")
        | .varr _ =>
          .error (op ++ " requires a tuple/array of two values [start, end], each being string|number|Date")
        | _ => .error (op ++ " requires an array with two values [start, end]")
      else if op == "$like" || op == "$notlike" || op == "$ilike" then
        if v.isString then .ok ()
        else .error (op ++ " requires a string value")
      else if op == "$gt" || op == "$gte" || op == "$lt" || op == "$lte" then
        if isValidComparisonValue v then .ok ()
        else .error (op ++ " requires a comparable value (string|number|Date)")
      else
        if isValidSimpleValue v then .ok ()
        else .error (op ++ " requires a simple value (string|number|Date|boolean|null)")

/-- The closed operator set: the canonical `$`-prefixed tags, one per
`FieldBuilder` method. -/
def closedOps : List String :=
  ["$eq", "$ne", "$gt", "$gte", "$lt", "$lte",
   "$like", "$ilike", "$notlike",
   "$in", "$notin",
   "$between", "$notbetween",
   "$isnull", "$notnull"]

/-- Modelled from the spec: the accepted-value table of spec section 4.1,
written from the words of the spec, to be compared with the source
`#validateValue`.  Nullity operators permit no value; every other operator
requires one; `eq`/`ne` accept string, number, boolean, date or null;
ordering operators accept string, number or date; pattern operators accept
strings; `in`/`notin` accept arrays whose every element is a string or a
number; `between`/`notbetween` accept exactly two elements, each string,
number or date. -/
def specAccepts (op : String) (value : Option Value) : Bool :=
  if op == "$isnull" || op == "$notnull" then
    match value with
    | none => true
    | some _ => false
  else
    match value with
    | none => false
    | some v =>
      if op == "$eq" || op == "$ne" then
        v.isString || v.isNumber || v.isBoolean || v.isDate || v.isNull
      else if op == "$gt" || op == "$gte" || op == "$lt" || op == "$lte" then
        v.isString || v.isNumber || v.isDate
      else if op == "$like" || op == "$ilike" || op == "$notlike" then
        v.isString
      else if op == "$in" || op == "$notin" then
        match v with
        | .varr xs => xs.all (fun x => x.isString || x.isNumber)
        | _ => false
      else if op == "$between" || op == "$notbetween" then
        match v with
        | .varr [s, e] =>
          (s.isString || s.isNumber || s.isDate) && (e.isString || e.isNumber || e.isDate)
        | _ => false
      else false

theorem isOk_if_bool (b : Bool) (e : String) :
    (if b then (Except.ok () : Except String Unit) else Except.error e).isOk = b := by
  cases b <;> rfl

theorem isOk_ite_prop (c : Prop) [Decidable c] (e : String) :
    (if c then (Except.ok () : Except String Unit) else Except.error e).isOk = decide c := by
  split <;> simp_all [Except.isOk, Except.toBool]

set_option maxHeartbeats 3200000 in
/-- Shared helper: over the closed operator set, the source validation
accepts exactly the values the table of the spec accepts. -/
theorem validate_matches_spec (op : String) (hop : op ∈ closedOps) (v : Option Value) :
    (validateValue op v).isOk = specAccepts op v := by
  have h15 : op = "$eq" ∨ op = "$ne" ∨ op = "$gt" ∨ op = "$gte" ∨ op = "$lt" ∨
      op = "$lte" ∨ op = "$like" ∨ op = "$ilike" ∨ op = "$notlike" ∨ op = "$in" ∨
      op = "$notin" ∨ op = "$between" ∨ op = "$notbetween" ∨ op = "$isnull" ∨
      op = "$notnull" := by
    simpa [closedOps, or_assoc] using hop
  rcases h15 with h | h | h | h | h | h | h | h | h | h | h | h | h | h | h <;>
    subst h <;>
    rcases v with _ | s | n | b | t | _ | xs | fs <;>
      solve
        | decide
        | simp [validateValue, specAccepts, Value.isString, Value.isNumber, Value.isBoolean,
                Value.isDate, Value.isNull, isValidSimpleValue, isValidComparisonValue,
                isValidRangeValue, isOk_if_bool, Except.isOk, Except.toBool]
        | (cases hall : xs.all (fun x => x.isString || x.isNumber) <;>
            simp [validateValue, specAccepts, hall, isOk_if_bool, Except.isOk, Except.toBool])
        | (rcases xs with _ | ⟨a, _ | ⟨c, _ | rest⟩⟩ <;>
            solve
              | simp [validateValue, specAccepts, Except.isOk, Except.toBool]
              | (rcases a with sa | na | ba | ta | _ | ya | ga <;>
                  rcases c with sc | nc | bc | tc | _ | yc | gc <;>
                    simp [validateValue, specAccepts, isValidRangeValue, Value.isString,
                          Value.isNumber, Value.isDate, Value.isBoolean, Value.isNull,
                          Except.isOk, Except.toBool]))

/-- **C1**: for every operator in the closed operator set and every supplied
value, the FieldBuilder validation (`#validateValue`, invoked by every
operator method before it appends a node, so a failure is raised
synchronously at the method call and never at `build()` time) succeeds if
and only if the value shape matches the accepted-value table of the spec:
nullity operators reject any supplied value, value-requiring operators
reject a missing value, pattern operators reject non-strings, `in`/`notin`
reject non-arrays and arrays with an element that is neither string nor
number, `between`/`notbetween` reject anything but exactly two elements
each string/number/date, ordering operators reject boolean and null, and
`eq`/`ne` accept string/number/boolean/date/null. -/
theorem C1_validation_iff_value_table (op : String) (hop : op ∈ closedOps) (v : Option Value) :
    (validateValue op v).isOk = specAccepts op v :=
  validate_matches_spec op hop v

theorem C1_validation_iff_value_table_witness :
    "$gt" ∈ closedOps ∧
      (validateValue "$gt" (some (.vbool true))).isOk = specAccepts "$gt" (some (.vbool true)) :=
  ⟨by decide, C1_validation_iff_value_table "$gt" (by decide) (some (.vbool true))⟩

/-- Combinator tag of a `ConditionGroup`: which of the two keys `$and` /
`$or` the object carries (the data model has exactly one of the two). -/
inductive Comb where
  | and
  | or
deriving Repr, DecidableEq

/-- A condition node: a leaf `{field, op, value?}` (`ConditionItem`, with
`value = none` when the JS object carries `undefined`, as for the nullity
operators), a raw leaf `{$raw: fragment, bindings?}` (`RawCondition`), or a
group `{$and: [...]}` / `{$or: [...]}` (`ConditionGroup`). -/
inductive Cond where
  | item (field : String) (op : String) (value : Option Value)
  | raw (fragment : String) (bindings : Option (List Value))
  | group (comb : Comb) (children : List Cond)

mutual

/-- `ConditionBuilder.#deepClone` on values: primitives returned as-is,
`new Date(obj)` copies the timestamp, arrays and objects are rebuilt
entry by entry. -/
def deepCloneValue : Value → Value
  | .vstr s => .vstr s
  | .vnum n => .vnum n
  | .vbool b => .vbool b
  | .vdate t => .vdate t
  | .vnull => .vnull
  | .varr xs => .varr (deepCloneValues xs)
  | .vobj fs => .vobj (deepCloneFields fs)

def deepCloneValues : List Value → List Value
  | [] => []
  | v :: vs => deepCloneValue v :: deepCloneValues vs

def deepCloneFields : List (String × Value) → List (String × Value)
  | [] => []
  | (k, v) :: fs => (k, deepCloneValue v) :: deepCloneFields fs

end

mutual

/-- `ConditionBuilder.#deepClone` on condition nodes. -/
def deepCloneCond : Cond → Cond
  | .item f o v => .item f o (v.map deepCloneValue)
  | .raw s bi => .raw s (bi.map deepCloneValues)
  | .group c cs => .group c (deepCloneConds cs)

def deepCloneConds : List Cond → List Cond
  | [] => []
  | c :: cs => deepCloneCond c :: deepCloneConds cs

end

mutual

theorem deepCloneValue_id : ∀ v : Value, deepCloneValue v = v
  | .vstr _ => rfl
  | .vnum _ => rfl
  | .vbool _ => rfl
  | .vdate _ => rfl
  | .vnull => rfl
  | .varr xs => by rw [deepCloneValue, deepCloneValues_id]
  | .vobj fs => by rw [deepCloneValue, deepCloneFields_id]

theorem deepCloneValues_id : ∀ xs : List Value, deepCloneValues xs = xs
  | [] => rfl
  | v :: vs => by rw [deepCloneValues, deepCloneValue_id, deepCloneValues_id]

theorem deepCloneFields_id : ∀ fs : List (String × Value), deepCloneFields fs = fs
  | [] => rfl
  | (k, v) :: fs => by rw [deepCloneFields, deepCloneValue_id, deepCloneFields_id]

end

mutual

theorem deepCloneCond_id : ∀ c : Cond, deepCloneCond c = c
  | .item f o v => by
    rw [deepCloneCond]
    cases v with
    | none => rfl
    | some v0 => rw [Option.map_some', deepCloneValue_id]
  | .raw s bi => by
    rw [deepCloneCond]
    cases bi with
    | none => rfl
    | some xs => rw [Option.map_some', deepCloneValues_id]
  | .group c cs => by rw [deepCloneCond, deepCloneConds_id]

theorem deepCloneConds_id : ∀ cs : List Cond, deepCloneConds cs = cs
  | [] => rfl
  | c :: cs => by rw [deepCloneConds, deepCloneCond_id, deepCloneConds_id]

end

/-- One open group on the `#current` stack: its combinator and the children
appended to it so far. -/
structure Frame where
  comb : Comb
  children : List Cond

/-- The `ConditionBuilder` state.  In the source, `#current` is an array of
references into the `#root` object graph; every mutating operation targets
the top reference, and while a group is on the stack it is the last child
of the group below it and the group below receives no new children.  The
stack of open groups (innermost first, the root group last) therefore
determines the whole graph, which `rootOf` reconstructs. -/
structure Builder where
  stack : List Frame

/-- `new ConditionBuilder()` / `ConditionBuilder.create()` with no
arguments: root is an empty `$and` group and the stack holds just it. -/
def emptyBuilder : Builder := ⟨[⟨.and, []⟩]⟩

/-- `ConditionBuilder.addCondition(condition)` (and the identical `add`):
push a deep clone of the node onto the child list of the current group,
under whichever of `$and` / `$or` the group carries. -/
def addCondition (b : Builder) (c : Cond) : Builder :=
  match b.stack with
  | [] => b
  | fr :: rest => ⟨⟨fr.comb, fr.children ++ [deepCloneCond c]⟩ :: rest⟩

/-- Modelled from the spec: `ConditionBuilder.raw(fragment, bindings?)`.
The method is exercised by the test suite and its output consumed by the
adapters, but its definition is not among the provided builder sources.
Per spec section 4.3 it appends a Raw Condition `{$raw: fragment,
bindings?}` to the current group as an unvalidated pass-through. -/
def raw (b : Builder) (fragment : String) (bindings : Option (List Value)) : Builder :=
  match b.stack with
  | [] => b
  | fr :: rest => ⟨⟨fr.comb, fr.children ++ [.raw fragment bindings]⟩ :: rest⟩

/-- First half of `#createGroup`: create an empty group of the given
combinator, append it to the current group, push it on the stack.  In this
representation the appended-but-still-open group is the new head frame;
`rootOf`/`popGroup` place it as the last child of the frame below, which is
exactly where the source attached it before invoking the callback. -/
def pushGroup (b : Builder) (t : Comb) : Builder := ⟨⟨t, []⟩ :: b.stack⟩

/-- Second half of `#createGroup`, the `finally { this.#current.pop() }`:
drop the top reference; the closed group stays attached as the last child
of the enclosing group. -/
def popGroup (b : Builder) : Builder :=
  match b.stack with
  | g :: fr :: rest => ⟨⟨fr.comb, fr.children ++ [.group g.comb g.children]⟩ :: rest⟩
  | s => ⟨s⟩

/-- Reconstruct the `#root` object graph from the stack: each open group is
the last child of the group below it. -/
def closeInto : Cond → List Frame → Cond
  | g, [] => g
  | g, fr :: rest => closeInto (.group fr.comb (fr.children ++ [g])) rest

/-- The `#root` object of the builder. -/
def rootOf (b : Builder) : Cond :=
  match b.stack with
  | [] => .group .and []
  | fr :: rest => closeInto (.group fr.comb fr.children) rest

/-- `'$and' in node || '$or' in node`: the node is a group. -/
def isGroup : Cond → Bool
  | .group _ _ => true
  | _ => false

mutual

/-- `ConditionBuilder.#unwrapSingleCondition(group)`: a non-group is
returned as-is; a group with exactly one child collapses to that child
(recursively when the child is itself a group); a group with two or more
children keeps its structure but has group children recursively unwrapped;
a group with no children is returned as-is. -/
def unwrapSingleCondition : Cond → Cond
  | .group k cs =>
    match cs with
    | [] => .group k []
    | [c] => if isGroup c then unwrapSingleCondition c else c
    | c1 :: c2 :: rest => .group k (unwrapChildren (c1 :: c2 :: rest))
  | c => c

/-- The `conditions.map(...)` pass of `#unwrapSingleCondition` for groups
with more than one child. -/
def unwrapChildren : List Cond → List Cond
  | [] => []
  | c :: rest => (if isGroup c then unwrapSingleCondition c else c) :: unwrapChildren rest

end

/-- `ConditionBuilder.build()`: deep-clone the root, then unwrap.  The
method only reads the builder state (the unwrap pass mutates only the
clone), so it is modelled as returning the result next to the unchanged
state. -/
def build (b : Builder) : Cond × Builder :=
  (unwrapSingleCondition (deepCloneCond (rootOf b)), b)

/-- `ConditionBuilder.from(condition)` (and the constructor with an initial
condition): a node carrying `$and` or `$or` becomes the root via deep
clone; any other node (a bare item, or a raw leaf which also has neither
key) is wrapped in a single-child `$and` group.  The stack is initialized
to just the root.  (`from` is a Lean keyword, hence the name.) -/
def fromNode : Cond → Builder
  | .group c cs => ⟨[⟨c, deepCloneConds cs⟩]⟩
  | c => ⟨[⟨.and, [deepCloneCond c]⟩]⟩

/-- `FieldBuilder.#createCondition(op, value?)`: validate first, then build
`{op, field, value}` and hand it to `parent.addCondition`.  The thrown
`ValidationError` is the `.error` case, raised before anything is appended. -/
def createCondition (b : Builder) (field : String) (op : String) (value : Option Value) :
    Except String Builder :=
  match validateValue op value with
  | .error e => .error e
  | .ok _ => .ok (addCondition b (.item field op value))

/-- `where(field).eq(value)`.  The TypeScript signatures constrain the
argument types, but values can arrive from untyped boundaries, so each
method is modelled on arbitrary runtime values (`none` = `undefined`). -/
def fbEq (b : Builder) (field : String) (v : Option Value) : Except String Builder :=
  createCondition b field "$eq" v

/-- `where(field).ne(value)`. -/
def fbNe (b : Builder) (field : String) (v : Option Value) : Except String Builder :=
  createCondition b field "$ne" v

/-- `where(field).gt(value)`. -/
def fbGt (b : Builder) (field : String) (v : Option Value) : Except String Builder :=
  createCondition b field "$gt" v

/-- `where(field).gte(value)`. -/
def fbGte (b : Builder) (field : String) (v : Option Value) : Except String Builder :=
  createCondition b field "$gte" v

/-- `where(field).lt(value)`. -/
def fbLt (b : Builder) (field : String) (v : Option Value) : Except String Builder :=
  createCondition b field "$lt" v

/-- `where(field).lte(value)`. -/
def fbLte (b : Builder) (field : String) (v : Option Value) : Except String Builder :=
  createCondition b field "$lte" v

/-- `where(field).like(value)`. -/
def fbLike (b : Builder) (field : String) (v : Option Value) : Except String Builder :=
  createCondition b field "$like" v

/-- `where(field).notLike(value)`. -/
def fbNotLike (b : Builder) (field : String) (v : Option Value) : Except String Builder :=
  createCondition b field "$notlike" v

/-- `where(field).ilike(value)`. -/
def fbIlike (b : Builder) (field : String) (v : Option Value) : Except String Builder :=
  createCondition b field "$ilike" v

/-- `where(field).in(values)`. -/
def fbIn (b : Builder) (field : String) (v : Option Value) : Except String Builder :=
  createCondition b field "$in" v

/-- `where(field).notIn(values)`. -/
def fbNotIn (b : Builder) (field : String) (v : Option Value) : Except String Builder :=
  createCondition b field "$notin" v

/-- `where(field).between(start, end)`: packs `[start, end]` and validates. -/
def fbBetween (b : Builder) (field : String) (s e : Value) : Except String Builder :=
  createCondition b field "$between" (some (.varr [s, e]))

/-- `where(field).notBetween(start, end)`. -/
def fbNotBetween (b : Builder) (field : String) (s e : Value) : Except String Builder :=
  createCondition b field "$notbetween" (some (.varr [s, e]))

/-- `where(field).isNull()`: no value argument; the stored `value` is
`undefined`. -/
def fbIsNull (b : Builder) (field : String) : Except String Builder :=
  createCondition b field "$isnull" none

/-- `where(field).isNotNull()`. -/
def fbIsNotNull (b : Builder) (field : String) : Except String Builder :=
  createCondition b field "$notnull" none

/-- JS `op.startsWith('$')`, modelled on the character list (Lean's own
`String.startsWith` does not reduce in the kernel). -/
def startsWithDollar (s : String) : Bool :=
  match s.data with
  | [] => false
  | c :: _ => c == '$'

/-- JS `op.toLowerCase()`, modelled as a character-wise lowering of the
character list (the tags of interest are ASCII). -/
def jsToLower (s : String) : String := ⟨s.data.map Char.toLower⟩

/-- The flattened `ConditionBuilder.#OPERATOR_MAPPINGS` table (BASIC,
PATTERN, ARRAY and NULL merged, as `#getMappedOperator` merges them):
operator key to `FieldBuilder` method name. -/
def OPERATOR_MAPPINGS : List (String × String) :=
  [("$eq", "eq"), ("$ne", "ne"), ("$gt", "gt"), ("$gte", "gte"),
   ("$lt", "lt"), ("$lte", "lte"),
   ("$like", "like"), ("$ilike", "ilike"), ("$notlike", "notLike"),
   ("$in", "in"), ("$nin", "notIn"), ("$notin", "notIn"),
   ("$between", "between"), ("$notbetween", "notBetween"),
   ("$isnull", "isNull"), ("$notnull", "isNotNull")]

/-- `ConditionBuilder.#getMappedOperator(op)`: a tag that already starts
with `$` is looked up verbatim (case-sensitively); any other tag is
lowercased and `$`-prefixed first. -/
def getMappedOperator (op : String) : Option String :=
  (OPERATOR_MAPPINGS.lookup (if startsWithDollar op then op else "$" ++ jsToLower op))

/-- `ConditionBuilder.#isDateOrNumberOrString`. -/
def isDateOrNumberOrString (v : Value) : Bool :=
  v.isString || v.isNumber || v.isDate

/-- `ConditionBuilder.#isSimpleValueArray`: every element a string or a
number. -/
def isSimpleValueArray (xs : List Value) : Bool :=
  xs.all (fun x => x.isString || x.isNumber)

/-- `ConditionBuilder.#isSimpleValue`:
`value === null || typeof value !== 'object' || value instanceof Date`. -/
def isSimpleValueCB (v : Value) : Bool :=
  v.isNull || v.isString || v.isNumber || v.isBoolean || v.isDate

/-- The dynamic dispatch `(fb[method] as Function).call(fb, value)` in
`#handleOperatorCondition`: invoke the named `FieldBuilder` method with the
single argument `value`.  JS drops extra arguments and pads missing ones
with `undefined`, so the nullity methods ignore `value`, and
`between`/`notBetween` receive `value` as `start` and `undefined` as `end`:
their packed array then always fails `#isValidRangeValue` on the second
element, producing the fixed range error regardless of `value`. -/
def callMethod (b : Builder) (field : String) (meth : String) (value : Option Value) :
    Except String Builder :=
  match meth with
  | "eq" => fbEq b field value
  | "ne" => fbNe b field value
  | "gt" => fbGt b field value
  | "gte" => fbGte b field value
  | "lt" => fbLt b field value
  | "lte" => fbLte b field value
  | "like" => fbLike b field value
  | "ilike" => fbIlike b field value
  | "notLike" => fbNotLike b field value
  | "in" => fbIn b field value
  | "notIn" => fbNotIn b field value
  | "between" =>
    .error "$between requires a tuple/array of two values [start, end], each being string|number|Date"
  | "notBetween" =>
    .error "$notbetween requires a tuple/array of two values [start, end], each being string|number|Date"
  | "isNull" => fbIsNull b field
  | "isNotNull" => fbIsNotNull b field
  | m => .error ("Method " ++ m ++ " not found on FieldBuilder")

/-- `ConditionBuilder.#handleOperatorCondition(field, op, value)`.  With no
mapping for `op` the source falls back: a two-element array of
string/number/date values becomes `between(start, end)`, any other array of
strings/numbers becomes `in`, anything else defaults to `eq` (source
comment: `Default to equals if no mapping found`).  With a mapping, the
special case for an array `value` under the exact tags `$between` /
`$notbetween` destructures `[start, end]` (further elements dropped) into
the two-argument call when both are string/number/date, and every other
combination goes through the one-argument dynamic dispatch. -/
def handleOperatorCondition (b : Builder) (field op : String) (value : Option Value) :
    Except String Builder :=
  match getMappedOperator op with
  | none =>
    match value with
    | some (.varr xs) =>
      match xs with
      | [s, e] =>
        if isDateOrNumberOrString s && isDateOrNumberOrString e then
          fbBetween b field s e
        else if isSimpleValueArray [s, e] then fbIn b field (some (.varr [s, e]))
        else fbEq b field (some (.varr [s, e]))
      | other =>
        if isSimpleValueArray other then fbIn b field (some (.varr other))
        else fbEq b field (some (.varr other))
    | v => fbEq b field v
  | some meth =>
    if op == "$between" || op == "$notbetween" then
      match value with
      | some (.varr xs) =>
        match xs.get? 0, xs.get? 1 with
        | some s, some e =>
          if isDateOrNumberOrString s && isDateOrNumberOrString e then
            if op == "$between" then fbBetween b field s e else fbNotBetween b field s e
          else callMethod b field meth value
        | _, _ => callMethod b field meth value
      | _ => callMethod b field meth value
    else callMethod b field meth value

/-- `where(field, op, value)` (shorthand form): deep-clones the value and
routes to `#handleOperatorCondition`. -/
def whereOp (b : Builder) (field op : String) (value : Option Value) : Except String Builder :=
  handleOperatorCondition b field op (value.map deepCloneValue)

/-- `ConditionBuilder.#isValidOperatorKey(key)`: the key is one of the
`#OPERATOR_MAPPINGS` keys, or the literal `op`. -/
def isValidOperatorKey (key : String) : Bool :=
  (OPERATOR_MAPPINGS.map Prod.fst).contains key || key == "op"

/-- `ConditionBuilder.#isExplicitOperator(value)`: `'op' in value`. -/
def isExplicitOperator (fs : List (String × Value)) : Bool :=
  (fs.lookup "op").isSome

/-- `ConditionBuilder.#handleComplexDescriptorValue(key, value)` for an
object-valued entry of a descriptor.  In the explicit `{op, value}` shape a
missing `value` property throws (a property present with the JS value
`undefined` is not representable here and counts as missing); the
`$between`/`$notbetween` special case repacks a valid `[start, end]`
destructuring (dropping further elements) before routing through
`where(key, op, ...)`.  In the single-entry operator-keyed shape only the
first entry is consulted, its key is checked against
`#isValidOperatorKey`, and the same `$between` repacking applies.  A
non-string `op` in the explicit shape would crash `op.startsWith` in JS and
is modelled as an error. -/
def handleComplexDescriptorValue (b : Builder) (key : String) (fs : List (String × Value)) :
    Except String Builder :=
  if isExplicitOperator fs then
    match fs.lookup "value" with
    | none => .error ("Missing value property in explicit operator format for field " ++ key)
    | some vval =>
      match fs.lookup "op" with
      | some (.vstr opStr) =>
        if opStr == "$between" || opStr == "$notbetween" then
          match vval with
          | .varr xs =>
            match xs.get? 0, xs.get? 1 with
            | some s, some e =>
              if isDateOrNumberOrString s && isDateOrNumberOrString e then
                whereOp b key opStr (some (.varr [s, e]))
              else whereOp b key opStr (some vval)
            | _, _ => whereOp b key opStr (some vval)
          | _ => whereOp b key opStr (some vval)
        else whereOp b key opStr (some vval)
      | _ => .error ("Invalid operator for field " ++ key)
  else
    match fs with
    | [] => .error ("Empty object is not a valid condition for field " ++ key)
    | (opKey, opValue) :: _ =>
      if !(isValidOperatorKey opKey) then
        .error ("Invalid operator key " ++ opKey ++ " for field " ++ key)
      else if opKey == "$between" || opKey == "$notbetween" then
        match opValue with
        | .varr xs =>
          match xs.get? 0, xs.get? 1 with
          | some s, some e =>
            if isDateOrNumberOrString s && isDateOrNumberOrString e then
              whereOp b key opKey (some (.varr [s, e]))
            else whereOp b key opKey (some opValue)
          | _, _ => whereOp b key opKey (some opValue)
        | _ => whereOp b key opKey (some opValue)
      else whereOp b key opKey (some opValue)

/-- `ConditionBuilder.#handleWhereDescriptor(descriptor)`: entries in
iteration order; a simple value becomes `eq`, an array becomes `in`, an
object goes through `#handleComplexDescriptorValue`.  A throw from any
entry propagates out of the `forEach`. -/
def handleWhereDescriptor (b : Builder) : List (String × Value) → Except String Builder
  | [] => .ok b
  | (key, v) :: rest =>
    match
      (if isSimpleValueCB v then fbEq b key (some v)
       else match v with
       | .varr xs => fbIn b key (some (.varr xs))
       | .vobj fs => handleComplexDescriptorValue b key fs
       | w => fbEq b key (some w)) with
    | .error e => .error e
    | .ok b2 => handleWhereDescriptor b2 rest

/-- `where(descriptor)` (bulk form, after `#isWhereDescriptor` recognizes a
non-array object): deep-clones the descriptor, then processes the entries. -/
def whereDescriptor (b : Builder) (d : List (String × Value)) : Except String Builder :=
  handleWhereDescriptor b (deepCloneFields d)

/-- A builder program: the sequence of mutating calls a caller makes on one
builder.  `addItem` is a validated leaf append (a `where(field).op(value)`
call), `addRaw` a `raw(...)` call, `grp` an `andGroup`/`orGroup` call whose
callback runs the nested program on the same builder, and `failHere` a
callback that throws an exception of its own at that point. -/
inductive Instr where
  | addItem (field op : String) (value : Option Value)
  | addRaw (fragment : String) (bindings : Option (List Value))
  | grp (comb : Comb) (body : List Instr)
  | failHere

mutual

/-- Run one instruction.  The returned flag is `true` on normal completion
and `false` when an exception escaped; mutations made before a throw
persist, exactly as they do on the JS object graph.  For `grp`, the
`finally` block pops the stack on both exit paths while the exception keeps
propagating. -/
def runInstr : Instr → Builder → Builder × Bool
  | .addItem f o v, b =>
    match createCondition b f o v with
    | .ok b2 => (b2, true)
    | .error _ => (b, false)
  | .addRaw f bi, b => (raw b f bi, true)
  | .failHere, b => (b, false)
  | .grp c body, b =>
    let r := runList body (pushGroup b c)
    (popGroup r.1, r.2)

/-- Run a program: stop at the first instruction that throws. -/
def runList : List Instr → Builder → Builder × Bool
  | [], b => (b, true)
  | i :: rest, b =>
    let r := runInstr i b
    if r.2 then runList rest r.1 else r

end

mutual

/-- Whether an instruction completes without throwing. -/
def instrOk : Instr → Bool
  | .addItem _ o v => (validateValue o v).isOk
  | .addRaw _ _ => true
  | .failHere => false
  | .grp _ body => listOk body

/-- Whether a whole program completes without throwing. -/
def listOk : List Instr → Bool
  | [] => true
  | i :: rest => instrOk i && listOk rest

end

mutual

/-- The children an instruction contributes to the group that is current
when it runs: one leaf for a successful append, nothing for a failed one or
a foreign throw, and — even when its body throws — one group holding the
children of the successful prefix of the body. -/
def instrChildren : Instr → List Cond
  | .addItem f o v => if (validateValue o v).isOk then [.item f o v] else []
  | .addRaw f bi => [.raw f bi]
  | .failHere => []
  | .grp c body => [.group c (listChildren body)]

/-- The children a program contributes to the current group: the
contributions of the instructions up to and including the first one that
throws. -/
def listChildren : List Instr → List Cond
  | [] => []
  | i :: rest => instrChildren i ++ (if instrOk i then listChildren rest else [])

end

mutual

/-- Shared helper: running one instruction on a builder whose current group
holds `cs` appends exactly `instrChildren i` to that group, leaves every
other frame untouched, and reports `instrOk i`. -/
theorem runInstr_frame : ∀ (i : Instr) (c : Comb) (cs : List Cond) (rest : List Frame),
    runInstr i ⟨⟨c, cs⟩ :: rest⟩ = (⟨⟨c, cs ++ instrChildren i⟩ :: rest⟩, instrOk i)
  | .addItem f o v, c, cs, rest => by
    cases h : validateValue o v with
    | ok u =>
      simp [runInstr, createCondition, h, addCondition, instrChildren, instrOk,
            deepCloneCond_id, Except.isOk, Except.toBool]
    | error e =>
      simp [runInstr, createCondition, h, instrChildren, instrOk, Except.isOk, Except.toBool]
  | .addRaw f bi, c, cs, rest => by
    simp [runInstr, raw, instrChildren, instrOk]
  | .failHere, c, cs, rest => by
    simp [runInstr, instrChildren, instrOk]
  | .grp c2 body, c, cs, rest => by
    simp only [runInstr, pushGroup]
    rw [runList_frame body c2 [] (⟨c, cs⟩ :: rest)]
    simp [popGroup, instrChildren, instrOk]

/-- Shared helper: running a program appends exactly `listChildren l` to the
current group and reports `listOk l`. -/
theorem runList_frame : ∀ (l : List Instr) (c : Comb) (cs : List Cond) (rest : List Frame),
    runList l ⟨⟨c, cs⟩ :: rest⟩ = (⟨⟨c, cs ++ listChildren l⟩ :: rest⟩, listOk l)
  | [], c, cs, rest => by simp [runList, listChildren, listOk]
  | i :: l, c, cs, rest => by
    rw [runList, runInstr_frame i c cs rest]
    cases h : instrOk i with
    | true =>
      simp only [h, if_true]
      rw [runList_frame l c (cs ++ instrChildren i) rest]
      simp [listChildren, listOk, h, List.append_assoc]
    | false =>
      simp [h, listChildren, listOk]

end

/-- The `ConditionAdapterRegistry` state: two independent string-keyed maps
(`serializers`, `deserializers`).  The adapter objects are opaque to the
registry, so their types are parameters. -/
structure Registry (S D : Type) where
  serializers : List (String × S)
  deserializers : List (String × D)

/-- JS `Map.set`: overwrite the binding when the key exists, else append. -/
def mapSet {A : Type} : List (String × A) → String → A → List (String × A)
  | [], k, v => [(k, v)]
  | (k0, v0) :: rest, k, v =>
    if k0 == k then (k0, v) :: rest else (k0, v0) :: mapSet rest k v

/-- `ConditionAdapterRegistry.register(type, serializer?, deserializer?)`:
each map is updated only when the corresponding argument is supplied. -/
def register {S D : Type} (r : Registry S D) (t : String) (s : Option S) (d : Option D) :
    Registry S D :=
  let r1 : Registry S D :=
    match s with
    | some sv => ⟨mapSet r.serializers t sv, r.deserializers⟩
    | none => r
  match d with
  | some dv => ⟨r1.serializers, mapSet r1.deserializers t dv⟩
  | none => r1

/-- `getSerializer(type)`: `Map.get`, or `throw new Error("Serializer
'<type>' not registered")` on a miss (quote characters elided). -/
def getSerializer {S D : Type} (r : Registry S D) (t : String) : Except String S :=
  match r.serializers.lookup t with
  | some s => .ok s
  | none => .error ("Serializer " ++ t ++ " not registered")

/-- `getDeserializer(type)`: symmetric, on the independent second map. -/
def getDeserializer {S D : Type} (r : Registry S D) (t : String) : Except String D :=
  match r.deserializers.lookup t with
  | some d => .ok d
  | none => .error ("Deserializer " ++ t ++ " not registered")

/-- **C10**: `getSerializer` returns the serializer registered under the
requested type when one exists and otherwise fails with the error naming
the missing type and the serializer kind; `getDeserializer` is symmetric on
its own map; and the two lookups consult independent mappings — registering
only a serializer under a type leaves the deserializer map (and hence every
`getDeserializer` answer) unchanged, and vice versa. -/
theorem C10_registry_lookup_or_fail (S D : Type) (r : Registry S D) (t : String) :
    (∀ s, r.serializers.lookup t = some s → getSerializer r t = .ok s) ∧
    (r.serializers.lookup t = none →
      getSerializer r t = .error ("Serializer " ++ t ++ " not registered")) ∧
    (∀ d, r.deserializers.lookup t = some d → getDeserializer r t = .ok d) ∧
    (r.deserializers.lookup t = none →
      getDeserializer r t = .error ("Deserializer " ++ t ++ " not registered")) ∧
    (∀ (t2 : String) (s : Option S),
      (register r t2 s none).deserializers = r.deserializers) ∧
    (∀ (t2 : String) (d : Option D),
      (register r t2 none d).serializers = r.serializers) := by
  refine ⟨fun s h => ?_, fun h => ?_, fun d h => ?_, fun h => ?_, fun t2 s => ?_, fun t2 d => ?_⟩
  · rw [getSerializer, h]
  · rw [getSerializer, h]
  · rw [getDeserializer, h]
  · rw [getDeserializer, h]
  · cases s <;> rfl
  · cases d <;> rfl

theorem C10_registry_lookup_or_fail_witness :
    ([("knex", 7)] : List (String × Nat)).lookup "knex" = some 7 ∧
    ([] : List (String × Nat)).lookup "knex" = none ∧
    getSerializer (⟨[("knex", 7)], []⟩ : Registry Nat Nat) "knex" = .ok 7 ∧
    getDeserializer (⟨[("knex", 7)], []⟩ : Registry Nat Nat) "knex" =
      .error ("Deserializer knex not registered") :=
  ⟨by decide, by decide,
   (C10_registry_lookup_or_fail Nat Nat ⟨[("knex", 7)], []⟩ "knex").1 7 (by decide),
   (C10_registry_lookup_or_fail Nat Nat ⟨[("knex", 7)], []⟩ "knex").2.2.2.1 (by decide)⟩

/-- Shared helper: the multi-child pass of the unwrapper is the map that
unwraps group children and keeps leaves. -/
theorem unwrapChildren_eq_map (cs : List Cond) :
    unwrapChildren cs =
      cs.map (fun c => if isGroup c then unwrapSingleCondition c else c) := by
  induction cs with
  | nil => rw [unwrapChildren, List.map_nil]
  | cons c rest ih => rw [unwrapChildren, List.map_cons, ih]

/-- **C2**: `build()` deep-copies the root and normalizes it: a group with
exactly one non-group child collapses to that child; a group holding a
single group holding a single item collapses fully to the item; a group
with zero children is kept; a group with two or more children keeps its
structure with group children recursively normalized; a builder on which
only `andGroup` with a no-op callback ran builds to a present empty `$and`
group; and `create().where('age').gt(18).build()` builds to the bare leaf. -/
theorem C2_build_normalization :
    (∀ (k : Comb) (f o : String) (v : Option Value),
        unwrapSingleCondition (.group k [.item f o v]) = .item f o v) ∧
    (∀ (k1 k2 : Comb) (f o : String) (v : Option Value),
        unwrapSingleCondition (.group k1 [.group k2 [.item f o v]]) = .item f o v) ∧
    (∀ k : Comb, unwrapSingleCondition (.group k []) = .group k []) ∧
    (∀ (k : Comb) (c1 c2 : Cond) (cs : List Cond),
        unwrapSingleCondition (.group k (c1 :: c2 :: cs)) =
          .group k ((c1 :: c2 :: cs).map
            (fun c => if isGroup c then unwrapSingleCondition c else c))) ∧
    (build (runInstr (.grp .and []) emptyBuilder).1).1 = .group .and [] ∧
    (fbGt emptyBuilder "age" (some (.vnum 18))).map (fun b => (build b).1) =
      .ok (.item "age" "$gt" (some (.vnum 18))) := by
  refine ⟨fun k f o v => ?_, fun k1 k2 f o v => ?_, fun k => ?_, fun k c1 c2 cs => ?_, ?_, ?_⟩
  · simp [unwrapSingleCondition, isGroup]
  · simp [unwrapSingleCondition, isGroup]
  · rw [unwrapSingleCondition]
  · rw [unwrapSingleCondition, unwrapChildren_eq_map]
  · simp [runInstr, runList, pushGroup, popGroup, emptyBuilder, build, rootOf, closeInto,
          deepCloneCond, deepCloneConds, unwrapSingleCondition, isGroup]
  · simp [fbGt, createCondition, validateValue, isValidComparisonValue, Value.isNumber,
          addCondition, emptyBuilder, build, rootOf, closeInto, deepCloneCond,
          deepCloneConds, deepCloneValue, unwrapSingleCondition, isGroup,
          Except.map, Value.isString, Value.isDate]

/-- **C3**: `build()` never mutates builder state: it returns the state it
was given, so two successive calls yield structurally equal results; and
for any program `p` run before a first `build()` and any program `q` run
after it, the root then holds exactly the conditions accumulated by `p`
followed by those of `q`, in append order.  (That mutating the object
`build()` returned cannot affect a later `build()` is expressed by the
embedding itself: `build` hands out a deep clone, `#deepClone` being the
identity on the alias-free trees of the model.) -/
theorem C3_build_does_not_mutate (p q : List Instr) :
    (build (runList p emptyBuilder).1).2 = (runList p emptyBuilder).1 ∧
    (build (build (runList p emptyBuilder).1).2).1 = (build (runList p emptyBuilder).1).1 ∧
    rootOf (runList q (build (runList p emptyBuilder).1).2).1 =
      .group .and (listChildren p ++ listChildren q) := by
  have hp := runList_frame p .and [] []
  have hq := runList_frame q .and (listChildren p) []
  rw [List.nil_append] at hp
  refine ⟨?_, ?_, ?_⟩
  · rw [build]
  · simp [build]
  · rw [build]
    show rootOf (runList q (runList p emptyBuilder).1).1 = _
    rw [show emptyBuilder = ⟨[⟨.and, []⟩]⟩ from rfl, hp]
    rw [hq]
    simp [rootOf, closeInto]

/-- **C5**: every `andGroup`/`orGroup` invocation attaches exactly one new
group of the given combinator to the previously-current group and pops the
stack exactly once on every exit path: even when the callback throws
(`listOk body = false`), the stack depth is restored, the partially-built
group stays attached holding exactly the children appended before the
failure, and any subsequent instruction appends to the previously-current
group. -/
theorem C5_group_stack_discipline (t : Comb) (body : List Instr) (c : Comb)
    (cs : List Cond) (rest : List Frame) :
    runInstr (.grp t body) ⟨⟨c, cs⟩ :: rest⟩ =
      (⟨⟨c, cs ++ [.group t (listChildren body)]⟩ :: rest⟩, listOk body) ∧
    (runInstr (.grp t body) ⟨⟨c, cs⟩ :: rest⟩).1.stack.length =
      (⟨⟨c, cs⟩ :: rest⟩ : Builder).stack.length ∧
    ∀ i2 : Instr,
      runInstr i2 (runInstr (.grp t body) ⟨⟨c, cs⟩ :: rest⟩).1 =
        (⟨⟨c, (cs ++ [.group t (listChildren body)]) ++ instrChildren i2⟩ :: rest⟩,
          instrOk i2) := by
  have h := runInstr_frame (.grp t body) c cs rest
  rw [instrChildren, instrOk] at h
  refine ⟨h, ?_, fun i2 => ?_⟩
  · rw [h]
    simp
  · rw [h]
    exact runInstr_frame i2 c (cs ++ [.group t (listChildren body)]) rest

/-- Shared helper: a spec-accepted value passes the source validation. -/
theorem validate_ok_of_spec (op : String) (hop : op ∈ closedOps) (v : Option Value)
    (hv : specAccepts op v = true) : validateValue op v = .ok () := by
  have h := validate_matches_spec op hop v
  rw [hv] at h
  cases hval : validateValue op v with
  | ok u => cases u; rfl
  | error e => rw [hval] at h; simp [Except.isOk, Except.toBool] at h

/-- The fluent construction path `where(field).<op>(value)` for a canonical
operator tag: one `FieldBuilder` method call per operator, with the
`between` methods taking the two range bounds.  Combinations outside the
closed set, or a `between` value that is not a two-element array, have no
corresponding fluent call. -/
def fluentApply (b : Builder) (field : String) : String → Option Value → Except String Builder
  | "$eq", v => fbEq b field v
  | "$ne", v => fbNe b field v
  | "$gt", v => fbGt b field v
  | "$gte", v => fbGte b field v
  | "$lt", v => fbLt b field v
  | "$lte", v => fbLte b field v
  | "$like", v => fbLike b field v
  | "$ilike", v => fbIlike b field v
  | "$notlike", v => fbNotLike b field v
  | "$in", v => fbIn b field v
  | "$notin", v => fbNotIn b field v
  | "$between", some (.varr [s, e]) => fbBetween b field s e
  | "$notbetween", some (.varr [s, e]) => fbNotBetween b field s e
  | "$isnull", _ => fbIsNull b field
  | "$notnull", _ => fbIsNotNull b field
  | _, _ => .error "no corresponding fluent call"


/-- The method name `#OPERATOR_MAPPINGS` assigns to each canonical tag. -/
def methodOf (op : String) : String :=
  if op == "$eq" then "eq" else if op == "$ne" then "ne"
  else if op == "$gt" then "gt" else if op == "$gte" then "gte"
  else if op == "$lt" then "lt" else if op == "$lte" then "lte"
  else if op == "$like" then "like" else if op == "$ilike" then "ilike"
  else if op == "$notlike" then "notLike"
  else if op == "$in" then "in" else if op == "$notin" then "notIn"
  else if op == "$between" then "between" else if op == "$notbetween" then "notBetween"
  else if op == "$isnull" then "isNull" else "isNotNull"

/-- Shared helper: on the closed set the operator lookup finds the table
method. -/
theorem getMapped_closed (op : String) (hop : op ∈ closedOps) :
    getMappedOperator op = some (methodOf op) := by
  have h15 : op = "$eq" ∨ op = "$ne" ∨ op = "$gt" ∨ op = "$gte" ∨ op = "$lt" ∨
      op = "$lte" ∨ op = "$like" ∨ op = "$ilike" ∨ op = "$notlike" ∨ op = "$in" ∨
      op = "$notin" ∨ op = "$between" ∨ op = "$notbetween" ∨ op = "$isnull" ∨
      op = "$notnull" := by
    simpa [closedOps, or_assoc] using hop
  rcases h15 with h | h | h | h | h | h | h | h | h | h | h | h | h | h | h <;>
    subst h <;> decide

set_option maxHeartbeats 3200000 in
/-- **C4**: for every field and every `(op, value)` pair that is valid per
the accepted-value table, the shorthand `where(field, op, value)` path
(`#handleOperatorCondition`) produces exactly the call the fluent
`where(field).<op>(value)` path makes, and both append the identical leaf
`{field, op, value}` — the shorthand routes through the same per-operator
validation with no bypass. -/
theorem C4_shorthand_equals_fluent (b : Builder) (field op : String) (v : Option Value)
    (hop : op ∈ closedOps) (hv : specAccepts op v = true) :
    handleOperatorCondition b field op v = fluentApply b field op v ∧
    handleOperatorCondition b field op v = .ok (addCondition b (.item field op v)) := by
  have hok := validate_ok_of_spec op hop v hv
  have hmap := getMapped_closed op hop
  have h15 : op = "$eq" ∨ op = "$ne" ∨ op = "$gt" ∨ op = "$gte" ∨ op = "$lt" ∨
      op = "$lte" ∨ op = "$like" ∨ op = "$ilike" ∨ op = "$notlike" ∨ op = "$in" ∨
      op = "$notin" ∨ op = "$between" ∨ op = "$notbetween" ∨ op = "$isnull" ∨
      op = "$notnull" := by
    simpa [closedOps, or_assoc] using hop
  rcases h15 with h | h | h | h | h | h | h | h | h | h | h | h | h | h | h <;>
    subst h <;> simp [methodOf] at hmap <;>
    solve
      | (constructor <;>
          simp [handleOperatorCondition, hmap, methodOf, callMethod, fluentApply,
                fbEq, fbNe, fbGt, fbGte, fbLt, fbLte, fbLike, fbNotLike, fbIlike,
                fbIn, fbNotIn, createCondition, hok])
      | (rcases v with _ | w
         · constructor <;>
             simp [handleOperatorCondition, hmap, methodOf, callMethod, fluentApply,
                   fbIsNull, fbIsNotNull, createCondition, hok]
         · revert hv
           simp [specAccepts])
      | (rcases v with _ | s | n | bb | tt | _ | xs | fs <;>
          solve
            | (revert hv; simp [specAccepts])
            | (rcases xs with _ | ⟨s1, _ | ⟨e1, _ | r⟩⟩ <;>
                solve
                  | (revert hv; simp [specAccepts])
                  | (have hse : (s1.isString || s1.isNumber || s1.isDate) = true ∧
                        (e1.isString || e1.isNumber || e1.isDate) = true := by
                        simpa [specAccepts] using hv
                     constructor <;>
                       simp [handleOperatorCondition, hmap, methodOf,
                             isDateOrNumberOrString, hse.1, hse.2, fluentApply,
                             fbBetween, fbNotBetween, createCondition, hok])))

theorem C4_shorthand_equals_fluent_witness :
    "$gt" ∈ closedOps ∧ specAccepts "$gt" (some (.vnum 18)) = true ∧
    (handleOperatorCondition emptyBuilder "age" "$gt" (some (.vnum 18)) =
        fluentApply emptyBuilder "age" "$gt" (some (.vnum 18)) ∧
      handleOperatorCondition emptyBuilder "age" "$gt" (some (.vnum 18)) =
        .ok (addCondition emptyBuilder (.item "age" "$gt" (some (.vnum 18))))) :=
  ⟨by decide, by decide,
   C4_shorthand_equals_fluent emptyBuilder "age" "$gt" (some (.vnum 18)) (by decide) (by decide)⟩

/-- **C6 counterexample**: the shorthand `where('f', '$foo', 5)` with the
unrecognized operator tag `$foo` does not raise a `ValidationError`; it
silently appends an `$eq` leaf (the source defaults to equals when no
mapping is found), refuting the claim that every `where` form rejects
unknown operator keys. -/
theorem C6_counterexample :
    whereOp emptyBuilder "f" "$foo" (some (.vnum 5)) =
      .ok ⟨[⟨.and, [.item "f" "$eq" (some (.vnum 5))]⟩]⟩ := by
  have hm : getMappedOperator "$foo" = none := by decide
  simp [whereOp, deepCloneValue, handleOperatorCondition, hm, fbEq, createCondition,
        validateValue, isValidSimpleValue, Value.isNumber, Value.isNull, Value.isString,
        Value.isBoolean, Value.isDate, addCondition, emptyBuilder, deepCloneCond,
        Option.map_some']

/-- **C6 (amended)**: only the single-entry operator-keyed descriptor shape
rejects an operator key outside the closed set; the shorthand
`where(field, op, value)` (and therefore the explicit `{op, value}`
descriptor shape, which routes through it) performs no operator-tag
validation — an unmapped tag falls back to `$between` for a two-element
array of string/number/date values, to `$in` for any other array of
strings/numbers, and otherwise to `$eq` with eq value validation, never
raising an unknown-operator error. -/
theorem C6_amended :
    (∀ (b : Builder) (key opKey : String) (w : Value),
        isValidOperatorKey opKey = false →
        handleComplexDescriptorValue b key [(opKey, w)] =
          .error ("Invalid operator key " ++ opKey ++ " for field " ++ key)) ∧
    (∀ (b : Builder) (field op2 : String) (w : Value),
        getMappedOperator op2 = none → isValidSimpleValue w = true →
        handleOperatorCondition b field op2 (some w) =
          .ok (addCondition b (.item field "$eq" (some w)))) ∧
    (∀ (b : Builder) (field op2 : String) (s1 e1 : Value),
        getMappedOperator op2 = none →
        isDateOrNumberOrString s1 = true → isDateOrNumberOrString e1 = true →
        handleOperatorCondition b field op2 (some (.varr [s1, e1])) =
          .ok (addCondition b (.item field "$between" (some (.varr [s1, e1]))))) ∧
    (∀ (b : Builder) (field op2 : String) (xs : List Value),
        getMappedOperator op2 = none → isSimpleValueArray xs = true → xs.length ≠ 2 →
        handleOperatorCondition b field op2 (some (.varr xs)) =
          .ok (addCondition b (.item field "$in" (some (.varr xs))))) := by
  refine ⟨fun b key opKey w h => ?_, fun b field op2 w hm hsv => ?_,
          fun b field op2 s1 e1 hm hd1 hd2 => ?_, fun b field op2 xs hm hsa hlen => ?_⟩
  · have hop' : opKey ≠ "op" := by
      intro he; subst he; simp [isValidOperatorKey] at h
    have hlk : (("op" : String) == opKey) = false := by
      rw [beq_eq_false_iff_ne]; exact fun he => hop' he.symm
    simp [handleComplexDescriptorValue, isExplicitOperator, List.lookup, hlk, h]
  · rcases w with s | n | bo | t | _ | xs | fs <;>
      solve
        | (revert hsv
           simp [isValidSimpleValue, Value.isNull, Value.isString, Value.isNumber,
                 Value.isBoolean, Value.isDate])
        | simp [handleOperatorCondition, hm, fbEq, createCondition, validateValue,
                isValidSimpleValue, Value.isNull, Value.isString, Value.isNumber,
                Value.isBoolean, Value.isDate, addCondition]
  · simp only [isDateOrNumberOrString] at hd1 hd2
    simp [handleOperatorCondition, hm, isDateOrNumberOrString, hd1, hd2, fbBetween,
          createCondition, validateValue, isValidRangeValue, addCondition]
  · rcases xs with _ | ⟨a1, _ | ⟨a2, _ | ⟨a3, t⟩⟩⟩
    · simp [handleOperatorCondition, hm, isSimpleValueArray, fbIn, createCondition,
            validateValue, addCondition]
    · revert hsa
      simp only [isSimpleValueArray]
      intro hsa
      simp [handleOperatorCondition, hm, isSimpleValueArray, hsa, fbIn, createCondition,
            validateValue, addCondition]
    · exact absurd rfl hlen
    · revert hsa
      simp only [isSimpleValueArray]
      intro hsa
      simp [handleOperatorCondition, hm, isSimpleValueArray, hsa, fbIn, createCondition,
            validateValue, addCondition]

theorem C6_amended_witness :
    isValidOperatorKey "$foo" = false ∧ getMappedOperator "$foo" = none ∧
    isValidSimpleValue (.vnum 5) = true ∧
    handleComplexDescriptorValue emptyBuilder "k" [("$foo", .vnum 1)] =
      .error ("Invalid operator key " ++ "$foo" ++ " for field " ++ "k") ∧
    handleOperatorCondition emptyBuilder "f" "$foo" (some (.vnum 5)) =
      .ok (addCondition emptyBuilder (.item "f" "$eq" (some (.vnum 5)))) :=
  ⟨by decide, by decide, by decide,
   C6_amended.1 emptyBuilder "k" "$foo" (.vnum 1) (by decide),
   C6_amended.2.1 emptyBuilder "f" "$foo" (.vnum 5) (by decide) (by decide)⟩

/-- **C7 counterexample**: `from({$or:[{field:'x',op:'$eq',value:1}]})`
followed by `.where('y').eq(2).build()` does not yield an AND-group wrapped
around the original OR-group: the constructor uses the supplied group
itself as the root, and `addCondition` appends into whichever group is
current, so the new `y` leaf joins the OR group and the result is
`{$or:[x-leaf, y-leaf]}`. -/
theorem C7_counterexample :
    (fbEq (fromNode (.group .or [.item "x" "$eq" (some (.vnum 1))])) "y"
        (some (.vnum 2))).map (fun b2 => (build b2).1) =
      .ok (.group .or [.item "x" "$eq" (some (.vnum 1)), .item "y" "$eq" (some (.vnum 2))]) ∧
    (fbEq (fromNode (.group .or [.item "x" "$eq" (some (.vnum 1))])) "y"
        (some (.vnum 2))).map (fun b2 => (build b2).1) ≠
      .ok (.group .and [.group .or [.item "x" "$eq" (some (.vnum 1))],
                        .item "y" "$eq" (some (.vnum 2))]) := by
  have heq :
      (fbEq (fromNode (.group .or [.item "x" "$eq" (some (.vnum 1))])) "y"
          (some (.vnum 2))).map (fun b2 => (build b2).1) =
        .ok (.group .or [.item "x" "$eq" (some (.vnum 1)),
                         .item "y" "$eq" (some (.vnum 2))]) := by
    simp [fromNode, deepCloneConds, deepCloneCond, deepCloneValue, Option.map_some',
          fbEq, createCondition, validateValue, isValidSimpleValue, Value.isNull,
          Value.isString, Value.isNumber, Value.isBoolean, Value.isDate, addCondition,
          build, rootOf, closeInto, unwrapSingleCondition, unwrapChildren, isGroup,
          Except.map]
  refine ⟨heq, ?_⟩
  rw [heq]
  intro hcontra
  simp at hcontra

/-- **C7 (amended)**: `from(node)` deep-copies the supplied node — a bare
Condition Item is wrapped in a single-child AND group, a Condition Group
becomes the root as-is — and conditions added afterwards are appended as
additional children of the root group itself: alongside the prior children
under the top-level AND when the root is an AND group, but directly into
the OR group when an OR root was supplied (no AND wrapper is introduced).
The input object is unmodified, `from` holding only a deep copy. -/
theorem C7_amended :
    (∀ (f o : String) (v : Option Value),
        fromNode (.item f o v) = ⟨[⟨.and, [.item f o v]⟩]⟩) ∧
    (∀ (s : String) (bi : Option (List Value)),
        fromNode (.raw s bi) = ⟨[⟨.and, [.raw s bi]⟩]⟩) ∧
    (∀ (k : Comb) (cs : List Cond), fromNode (.group k cs) = ⟨[⟨k, cs⟩]⟩) ∧
    (∀ (k : Comb) (cs : List Cond) (c : Cond),
        rootOf (addCondition (fromNode (.group k cs)) c) = .group k (cs ++ [c])) := by
  refine ⟨fun f o v => ?_, fun s bi => ?_, fun k cs => ?_, fun k cs c => ?_⟩
  · simp [fromNode, deepCloneCond_id]
  · simp [fromNode, deepCloneCond_id]
  · simp [fromNode, deepCloneConds_id]
  · simp [fromNode, deepCloneConds_id, addCondition, deepCloneCond_id, rootOf, closeInto]

/-- **C8**: the builder exposes `raw(fragment, bindings?)`, appending the
Raw Condition `{$raw: fragment, bindings?}` to the current group without
inspecting the fragment, and `create().raw('col = ?', [5]).build()` yields
the bare raw leaf (the adopted normalization policy unwraps the
single-child AND root). -/
theorem C8_raw_condition :
    (∀ (c : Comb) (cs : List Cond) (rest : List Frame) (s : String)
        (bi : Option (List Value)),
        raw ⟨⟨c, cs⟩ :: rest⟩ s bi = ⟨⟨c, cs ++ [.raw s bi]⟩ :: rest⟩) ∧
    (build (raw emptyBuilder "col = ?" (some [.vnum 5]))).1 =
      .raw "col = ?" (some [.vnum 5]) := by
  constructor
  · intro c cs rest s bi; rfl
  · simp [raw, emptyBuilder, build, rootOf, closeInto, deepCloneCond, deepCloneConds,
          deepCloneValues, deepCloneValue, unwrapSingleCondition, isGroup, Option.map_some']

/-- **C9 counterexample**: the `$`-prefixed uppercase variant `$GT` is not
recognized — `#getMappedOperator` lowercases only unprefixed tags — so
`where('f', '$GT', 5)` silently appends an `$eq` leaf instead of the
claimed canonical `$gt` leaf. -/
theorem C9_counterexample :
    whereOp emptyBuilder "f" "$GT" (some (.vnum 5)) =
      .ok ⟨[⟨.and, [.item "f" "$eq" (some (.vnum 5))]⟩]⟩ ∧
    whereOp emptyBuilder "f" "$GT" (some (.vnum 5)) ≠
      .ok ⟨[⟨.and, [.item "f" "$gt" (some (.vnum 5))]⟩]⟩ := by
  have hm : getMappedOperator "$GT" = none := by decide
  have heq : whereOp emptyBuilder "f" "$GT" (some (.vnum 5)) =
      .ok ⟨[⟨.and, [.item "f" "$eq" (some (.vnum 5))]⟩]⟩ := by
    simp [whereOp, deepCloneValue, handleOperatorCondition, hm, fbEq, createCondition,
          validateValue, isValidSimpleValue, Value.isNumber, Value.isNull, Value.isString,
          Value.isBoolean, Value.isDate, addCondition, emptyBuilder, deepCloneCond,
          Option.map_some']
  refine ⟨heq, ?_⟩
  rw [heq]
  intro hcontra
  simp at hcontra

/-- The canonical tag the mapped method stores for an operator key: `$nin`
is an alias whose method `notIn` stores `$notin`; every other key stores
itself. -/
def canonTag (opKey : String) : String :=
  if opKey == "$nin" then "$notin" else opKey

/-- The value the mapped method stores: the nullity methods take no
parameter, so the dispatched argument is dropped and `undefined` stored. -/
def storedValue (opKey : String) (v : Option Value) : Option Value :=
  if opKey == "$isnull" || opKey == "$notnull" then none else v

/-- Shared helper: an unprefixed tag is never equal to a `$`-prefixed one. -/
theorem unprefixed_beq_dollar (s t : String) (hs : startsWithDollar s = false)
    (ht : startsWithDollar t = true) : (s == t) = false := by
  rw [beq_eq_false_iff_ne]
  intro he
  subst he
  rw [hs] at ht
  exact Bool.false_ne_true ht

set_option maxHeartbeats 3200000 in
/-- **C9 (amended)**: case-insensitivity holds only for operator tags
supplied without the leading `$`: such a tag is lowercased, `$`-prefixed
and looked up, so for every mapped key other than `$between`/`$notbetween`
the call with a spec-valid value appends the leaf with the canonical stored
tag (with `$nin` an alias of `$notin`, and the nullity methods dropping any
dispatched value).  The `between`/`notbetween` operators are the exception:
their two-argument special case compares the raw tag against the exact
canonical `$between`/`$notbetween`, so an unprefixed variant of either —
any letter case, valid value or not — always raises a `ValidationError`
from the one-argument dispatch, while the exact `$`-prefixed lowercase form
works; `$`-prefixed tags are matched case-sensitively (see the
counterexample for `$GT`). -/
theorem C9_amended :
    (∀ (s : String) (b : Builder) (field : String) (v : Option Value) (k : String),
        startsWithDollar s = false → "$" ++ jsToLower s = k →
        k ∈ ["$eq", "$ne", "$gt", "$gte", "$lt", "$lte", "$like", "$ilike", "$notlike",
             "$in", "$nin", "$notin", "$isnull", "$notnull"] →
        specAccepts (canonTag k) (storedValue k v) = true →
        handleOperatorCondition b field s v =
          .ok (addCondition b (.item field (canonTag k) (storedValue k v)))) ∧
    (∀ (s : String) (b : Builder) (field : String) (v : Option Value),
        startsWithDollar s = false → "$" ++ jsToLower s = "$between" →
        handleOperatorCondition b field s v =
          .error "$between requires a tuple/array of two values [start, end], each being string|number|Date") ∧
    (∀ (s : String) (b : Builder) (field : String) (v : Option Value),
        startsWithDollar s = false → "$" ++ jsToLower s = "$notbetween" →
        handleOperatorCondition b field s v =
          .error "$notbetween requires a tuple/array of two values [start, end], each being string|number|Date") ∧
    (∀ (b : Builder) (field : String) (s1 e1 : Value),
        isDateOrNumberOrString s1 = true → isDateOrNumberOrString e1 = true →
        handleOperatorCondition b field "$between" (some (.varr [s1, e1])) =
          .ok (addCondition b (.item field "$between" (some (.varr [s1, e1]))))) := by
  refine ⟨fun s b field v k hsw hk hmem hspec => ?_,
          fun s b field v hsw hk => ?_, fun s b field v hsw hk => ?_,
          fun b field s1 e1 hd1 hd2 => ?_⟩
  · have hne1 := unprefixed_beq_dollar s "$between" hsw (by decide)
    have hne2 := unprefixed_beq_dollar s "$notbetween" hsw (by decide)
    simp only [List.mem_cons, List.not_mem_nil, or_false] at hmem
    rcases hmem with h | h | h | h | h | h | h | h | h | h | h | h | h | h <;> subst h <;>
      (have hok := validate_ok_of_spec _ (by decide) _ hspec
       simp [canonTag, storedValue] at hok
       simp [handleOperatorCondition, getMappedOperator, hsw, hk, List.lookup, hne1, hne2,
             callMethod, fbEq, fbNe, fbGt, fbGte, fbLt, fbLte, fbLike, fbNotLike, fbIlike,
             fbIn, fbNotIn, fbIsNull, fbIsNotNull, createCondition, hok, canonTag,
             storedValue])
  · have hne1 := unprefixed_beq_dollar s "$between" hsw (by decide)
    have hne2 := unprefixed_beq_dollar s "$notbetween" hsw (by decide)
    simp [handleOperatorCondition, getMappedOperator, hsw, hk, List.lookup, hne1, hne2,
          callMethod]
  · have hne1 := unprefixed_beq_dollar s "$between" hsw (by decide)
    have hne2 := unprefixed_beq_dollar s "$notbetween" hsw (by decide)
    simp [handleOperatorCondition, getMappedOperator, hsw, hk, List.lookup, hne1, hne2,
          callMethod]
  · have hmb : getMappedOperator "$between" = some "between" := by decide
    simp only [isDateOrNumberOrString] at hd1 hd2
    simp [handleOperatorCondition, hmb, isDateOrNumberOrString, hd1, hd2, fbBetween,
          createCondition, validateValue, isValidRangeValue, addCondition]

theorem C9_amended_witness :
    startsWithDollar "GT" = false ∧ ("$" ++ jsToLower "GT") = "$gt" ∧
    specAccepts (canonTag "$gt") (storedValue "$gt" (some (.vnum 5))) = true ∧
    handleOperatorCondition emptyBuilder "f" "GT" (some (.vnum 5)) =
      .ok (addCondition emptyBuilder
        (.item "f" (canonTag "$gt") (storedValue "$gt" (some (.vnum 5))))) :=
  ⟨by decide, by decide, by decide,
   C9_amended.1 "GT" emptyBuilder "f" (some (.vnum 5)) "$gt" (by decide) (by decide)
     (by decide) (by decide)⟩
